import Mathlib

/-!
Verification development for the `langobject` method-interception layer
(`src/langobject.js`).  The JavaScript source is shallowly embedded:
JS runtime values become `JsValue`, the proxy `handler.get` becomes
`resolveGet`/`interceptCall`, prompt synthesis (lines 17-46) becomes
`synthPrompt`, the tool-directive compiler (lines 49-78) becomes
`toolPromptOf`, and the `onGenerationFinished` reconciler (lines 88-122)
becomes `reconcileStr`.  JS built-ins that the code relies on
(`JSON.parse`, `JSON.stringify`, `String()` coercion, `Object.keys`
ordering, truthiness, `typeof`) are modelled explicitly below.
-/

namespace Langobject

/-- JS runtime values as far as the intercepted code can observe them:
`undefined` is `undefined`, `num` models integral numbers (the only numerals
the repository's data exercises; fractional JSON numerals are treated as
unparseable), `obj` is a plain object as an ordered association list of
own enumerable properties. -/
inductive JsValue where
  | undefined
  | null
  | bool (b : Bool)
  | num (n : Int)
  | str (s : String)
  | arr (xs : List JsValue)
  | obj (fs : List (String × JsValue))

/-- JS truthiness (`!v` is `!truthy v`): `undefined`, `null`, `false`,
`0` and `""` are falsy; every object and array is truthy. -/
def truthy : JsValue → Bool
  | .undefined => false
  | .null => false
  | .bool b => b
  | .num n => n != 0
  | .str s => s != ""
  | .arr _ => true
  | .obj _ => true

/-- Concatenation of a list of strings (the result of repeated `+=`). -/
def strJoin : List String → String
  | [] => ""
  | s :: ss => s ++ strJoin ss

/-- `sep`-separated join, as `Array.prototype.join(sep)` on a nonempty
list; empty list gives `""`. -/
def strJoinSep (sep : String) : List String → String
  | [] => ""
  | [s] => s
  | s :: ss => s ++ sep ++ strJoinSep sep ss

/-- Whether `pat` occurs at the head of `s`. -/
def leadMatch : List Char → List Char → Bool
  | [], _ => true
  | _ :: _, [] => false
  | p :: ps, c :: cs => p == c && leadMatch ps cs

/-- Whether `pat` occurs contiguously anywhere in `s`
(JS `String.prototype.includes`). -/
def listHasInfix (pat : List Char) : List Char → Bool
  | [] => pat.isEmpty
  | c :: cs => leadMatch pat (c :: cs) || listHasInfix pat (c :: cs |>.tail)

/-- JS `haystack.includes(needle)`. -/
def strIncludes (haystack needle : String) : Bool :=
  listHasInfix needle.data haystack.data

/-- JS whitespace for `trim` as exercised here (the camel-case pass only
ever introduces plain spaces). -/
def isWs (c : Char) : Bool :=
  c == ' ' || c == '\t' || c == '\n' || c == '\r'

/-- JS `String.prototype.trim`. -/
def jsTrim (s : String) : String :=
  ⟨((s.data.dropWhile isWs).reverse.dropWhile isWs).reverse⟩

/-- `propKey.replace(/([A-Z])/g, ' $1')`: a space before every
upper-case letter. -/
def camelSpaced (s : String) : String :=
  ⟨s.data.foldr (fun c acc => if c.isUpper then ' ' :: c :: acc else c :: acc) []⟩

/-- JS `toLowerCase` on the ASCII identifiers used as method names. -/
def jsLower (s : String) : String :=
  ⟨s.data.map Char.toLower⟩

/-- Line 31: `propKey.replace(/([A-Z])/g, ' $1').trim().toLowerCase()`. -/
def camelWords (s : String) : String :=
  jsLower (jsTrim (camelSpaced s))

/-- `param.includes('_')` (line 34/39). -/
def hasUnderscore (s : String) : Bool :=
  s.data.contains '_'

/-- Line 39: `name.replace(/_/g, ' ').toUpperCase()`. -/
def renderDirective (s : String) : String :=
  ⟨s.data.map (fun c => if c == '_' then ' ' else c.toUpper)⟩

/-- Lower-case hex digit. -/
def hexDigit (n : Nat) : Char :=
  if n < 10 then Char.ofNat (48 + n) else Char.ofNat (87 + n)

/-- Four-digit hex rendering used by `JSON.stringify` for control
characters. -/
def hex4 (n : Nat) : String :=
  ⟨[hexDigit (n / 4096 % 16), hexDigit (n / 256 % 16),
    hexDigit (n / 16 % 16), hexDigit (n % 16)]⟩

/-- `JSON.stringify` escaping of one string character. -/
def jsonEscapeChar (c : Char) : String :=
  if c == '"' then "\\\""
  else if c == '\\' then "\\\\"
  else if c == '\n' then "\\n"
  else if c == '\r' then "\\r"
  else if c == '\t' then "\\t"
  else if c == '\x08' then "\\b"
  else if c == '\x0c' then "\\f"
  else if c.toNat < 32 then "\\u" ++ hex4 c.toNat
  else ⟨[c]⟩

/-- `JSON.stringify` of a string value, quotes included. -/
def jsonQuote (s : String) : String :=
  "\"" ++ strJoin (s.data.map jsonEscapeChar) ++ "\""

/-- A canonical array-index property key (all digits, no leading zero,
below 2^32 - 1): such keys iterate first, in ascending numeric order,
under JS own-property enumeration. -/
def isIndexKey (s : String) : Bool :=
  s != "" && s.data.all Char.isDigit &&
    (s == "0" || s.data.head? != some '0') &&
    (s.toNat?.getD 0 < 4294967295)

/-- Numeric value of an index key (0 for non-numeric, unused there). -/
def keyNat (s : String) : Nat :=
  s.toNat?.getD 0

/-- Stable insertion into a list of fields sorted by numeric key. -/
def insertByKey (x : String × JsValue) :
    List (String × JsValue) → List (String × JsValue)
  | [] => [x]
  | y :: ys =>
    if keyNat x.1 ≤ keyNat y.1 then x :: y :: ys else y :: insertByKey x ys

/-- Insertion sort of fields by numeric key (stable). -/
def sortByKey : List (String × JsValue) → List (String × JsValue)
  | [] => []
  | x :: xs => insertByKey x (sortByKey xs)

/-- JS own-property enumeration order of a plain object's fields:
canonical array-index keys first in ascending numeric order, then the
remaining keys in insertion order. -/
def orderedFields (fs : List (String × JsValue)) : List (String × JsValue) :=
  sortByKey (fs.filter (fun pr => isIndexKey pr.1)) ++
    fs.filter (fun pr => !isIndexKey pr.1)

mutual

/-- Depth of a value (dominates the recursion depth of every traversal
below, so it serves as fuel). -/
def jsDepth : JsValue → Nat
  | .arr xs => jsDepthList xs + 1
  | .obj fs => jsDepthFields fs + 1
  | _ => 1

/-- Maximal depth of a list of values. -/
def jsDepthList : List JsValue → Nat
  | [] => 0
  | x :: xs => max (jsDepth x) (jsDepthList xs)

/-- Maximal depth of an association list's values. -/
def jsDepthFields : List (String × JsValue) → Nat
  | [] => 0
  | (_, v) :: fs => max (jsDepth v) (jsDepthFields fs)

end

/-- Whether a value is `undefined`. -/
def isUndefined : JsValue → Bool
  | .undefined => true
  | _ => false

/-- Whether a value is `undefined` or `null`. -/
def isNullish : JsValue → Bool
  | .undefined => true
  | .null => true
  | _ => false

/-- Fuelled body of `JSON.stringify`; the fuel only has to dominate the
value's depth, and recursion on it is structural, so concrete calls
reduce definitionally. -/
def jsonStringifyF : Nat → JsValue → String
  | 0, _ => ""
  | _ + 1, .undefined => "undefined"
  | _ + 1, .null => "null"
  | _ + 1, .bool true => "true"
  | _ + 1, .bool false => "false"
  | _ + 1, .num n => toString n
  | _ + 1, .str s => jsonQuote s
  | f + 1, .arr xs =>
    "[" ++ strJoinSep "," (xs.map (fun x =>
      if isUndefined x then "null" else jsonStringifyF f x)) ++ "]"
  | f + 1, .obj fs =>
    "\x7b" ++ strJoinSep ","
      (((orderedFields fs).filter (fun pr => !isUndefined pr.2)).map
        (fun pr => jsonQuote pr.1 ++ ":" ++ jsonStringifyF f pr.2)) ++ "\x7d"

/-- `JSON.stringify` (as interpolated into a template literal, so a
top-level `undefined` renders as the text `undefined`; `undefined` array
elements render as `null` and `undefined`-valued object properties are
omitted). -/
def jsonStringify (v : JsValue) : String :=
  jsonStringifyF (jsDepth v) v

/-- Fuelled body of the JS `String()` coercion. -/
def jsStringF : Nat → JsValue → String
  | 0, _ => ""
  | _ + 1, .undefined => "undefined"
  | _ + 1, .null => "null"
  | _ + 1, .bool true => "true"
  | _ + 1, .bool false => "false"
  | _ + 1, .num n => toString n
  | _ + 1, .str s => s
  | f + 1, .arr xs =>
    strJoinSep "," (xs.map (fun x =>
      if isNullish x then "" else jsStringF f x))
  | _ + 1, .obj _ => "[object Object]"

/-- JS `String()` coercion: arrays join their elements with commas
(`null`/`undefined` elements become empty), plain objects render as
`[object Object]`. -/
def jsString (v : JsValue) : String :=
  jsStringF (jsDepth v) v

/-! ### JSON.parse

A recursive-descent model of `JSON.parse`.  It accepts the JSON the
repository's data exercises (strings with escapes, integral numbers,
booleans, `null`, arrays, objects); fractional or exponent numerals are
treated as unparseable.  Duplicate object keys keep the first key's
position with the last value, as in JS. -/

/-- Hexadecimal digit value. -/
def hexVal (c : Char) : Option Nat :=
  if '0' ≤ c && c ≤ '9' then some (c.toNat - 48)
  else if 'a' ≤ c && c ≤ 'f' then some (c.toNat - 87)
  else if 'A' ≤ c && c ≤ 'F' then some (c.toNat - 55)
  else none

/-- Skip JSON whitespace. -/
def skipWs (cs : List Char) : List Char :=
  cs.dropWhile isWs

/-- Parse the remainder of a JSON string literal (after the opening
quote), decoding escapes. -/
def pStr : List Char → Option (String × List Char)
  | [] => none
  | '"' :: r => some ("", r)
  | '\\' :: 'u' :: a :: b :: c :: d :: r =>
    (match hexVal a, hexVal b, hexVal c, hexVal d with
     | some x, some y, some z, some w =>
       (pStr r).map (fun pr =>
         (⟨Char.ofNat (4096 * x + 256 * y + 16 * z + w) :: pr.1.data⟩, pr.2))
     | _, _, _, _ => none)
  | '\\' :: '"' :: r => (pStr r).map (fun pr => (⟨'"' :: pr.1.data⟩, pr.2))
  | '\\' :: '\\' :: r => (pStr r).map (fun pr => (⟨'\\' :: pr.1.data⟩, pr.2))
  | '\\' :: '/' :: r => (pStr r).map (fun pr => (⟨'/' :: pr.1.data⟩, pr.2))
  | '\\' :: 'b' :: r => (pStr r).map (fun pr => (⟨'\x08' :: pr.1.data⟩, pr.2))
  | '\\' :: 'f' :: r => (pStr r).map (fun pr => (⟨'\x0c' :: pr.1.data⟩, pr.2))
  | '\\' :: 'n' :: r => (pStr r).map (fun pr => (⟨'\n' :: pr.1.data⟩, pr.2))
  | '\\' :: 'r' :: r => (pStr r).map (fun pr => (⟨'\r' :: pr.1.data⟩, pr.2))
  | '\\' :: 't' :: r => (pStr r).map (fun pr => (⟨'\t' :: pr.1.data⟩, pr.2))
  | '\\' :: _ => none
  | c :: r =>
    if c.toNat < 32 then none
    else (pStr r).map (fun pr => (⟨c :: pr.1.data⟩, pr.2))

/-- Parse an unsigned integral JSON numeral (no leading zeros); a
following `.`, `e` or `E` is not supported and fails the parse. -/
def pNum (cs : List Char) : Option (Nat × List Char) :=
  let ds := cs.takeWhile Char.isDigit
  let r := cs.dropWhile Char.isDigit
  if ds.isEmpty then none
  else if ds.head? == some '0' && ds.length > 1 then none
  else
    match r with
    | '.' :: _ => none
    | 'e' :: _ => none
    | 'E' :: _ => none
    | _ => some (ds.foldl (fun n c => 10 * n + (c.toNat - 48)) 0, r)

/-- Replace the value at an existing key (keeping its position), else
append, as JS object construction does on duplicate keys. -/
def insertField (fs : List (String × JsValue)) (k : String) (v : JsValue) :
    List (String × JsValue) :=
  if fs.any (fun pr => pr.1 == k) then
    fs.map (fun pr => if pr.1 == k then (k, v) else pr)
  else fs ++ [(k, v)]

mutual

/-- Parse one JSON value; the fuel dominates input length plus nesting
depth. -/
def pVal : Nat → List Char → Option (JsValue × List Char)
  | 0, _ => none
  | f + 1, cs =>
    match skipWs cs with
    | 'n' :: 'u' :: 'l' :: 'l' :: r => some (.null, r)
    | 't' :: 'r' :: 'u' :: 'e' :: r => some (.bool true, r)
    | 'f' :: 'a' :: 'l' :: 's' :: 'e' :: r => some (.bool false, r)
    | '"' :: r => (pStr r).map (fun pr => (.str pr.1, pr.2))
    | '[' :: r =>
      (match skipWs r with
       | ']' :: r' => some (.arr [], r')
       | r' => pArrItems f r' [])
    | '{' :: r =>
      (match skipWs r with
       | '}' :: r' => some (.obj [], r')
       | r' => pObjItems f r' [])
    | '-' :: r => (pNum r).map (fun pr => (.num (-(pr.1 : Int)), pr.2))
    | c :: r =>
      if c.isDigit then (pNum (c :: r)).map (fun pr => (.num (pr.1 : Int), pr.2))
      else none
    | [] => none

/-- Parse the items of a non-empty JSON array. -/
def pArrItems : Nat → List Char → List JsValue → Option (JsValue × List Char)
  | 0, _, _ => none
  | f + 1, cs, acc =>
    match pVal f cs with
    | none => none
    | some (v, r) =>
      match skipWs r with
      | ',' :: r' => pArrItems f r' (acc ++ [v])
      | ']' :: r' => some (.arr (acc ++ [v]), r')
      | _ => none

/-- Parse the members of a non-empty JSON object. -/
def pObjItems : Nat → List Char → List (String × JsValue) →
    Option (JsValue × List Char)
  | 0, _, _ => none
  | f + 1, cs, acc =>
    match skipWs cs with
    | '"' :: r =>
      match pStr r with
      | none => none
      | some (k, r') =>
        match skipWs r' with
        | ':' :: r'' =>
          match pVal f r'' with
          | none => none
          | some (v, r3) =>
            match skipWs r3 with
            | ',' :: r4 => pObjItems f r4 (insertField acc k v)
            | '}' :: r4 => some (.obj (insertField acc k v), r4)
            | _ => none
        | _ => none
    | _ => none

end

/-- `JSON.parse` on a string: parse one value, then require only
whitespace to remain. -/
def jsonParse (s : String) : Option JsValue :=
  match pVal (2 * s.length + 8) s.data with
  | some (v, r) => if skipWs r = [] then some v else none
  | none => none

/-- `JSON.parse(v)` for an arbitrary argument: a non-string argument is
first coerced with `String()` (so a plain object yields the unparseable
`[object Object]`, while an array yields its comma-joined elements). -/
def jsonParseJs (v : JsValue) : Option JsValue :=
  jsonParse (jsString v)

/-! ### The host-object model

`HostObject` (spec §3): an application instance with function-valued
properties (interceptable methods, `_sanitizeOutput` hooks, tool
implementations), plain data properties, and the optional `tools`,
`messages` and `stream` members.  The wrapper captures it by reference;
only `messages` is ever replaced here (the embedding threads the new
list through `ReconcileRes.messagesAfter`). -/

/-- A function-valued property: its formal parameter names (what
`getParamNames`, lines 158-162, recovers from the source text) and its
body's return value.  Bodies in this repository are pure; effectful
bodies are out of the intercepted dataflow. -/
structure Func where
  params : List String
  ret : List JsValue → JsValue

/-- An entry of `HostObject.tools`: a named callable with its parameter
names, as rendered into the tool-directive block. -/
structure Tool where
  name : String
  params : List String

/-- A conversational turn of `HostObject.messages`. -/
structure Message where
  role : String
  content : JsValue

/-- A property value on the host: a function or a plain value. -/
inductive PropVal where
  | func (f : Func)
  | val (v : JsValue)

/-- The host object. -/
structure Host where
  ctorName : String
  funcs : List (String × Func)
  plainProps : List (String × JsValue)
  tools : Option (List Tool)
  messages : Option (List Message)
  hasStream : Bool

/-- `target[k]`: own property lookup (function-valued properties first;
`tools`, `messages` and `stream` are modelled by their dedicated
fields). -/
def Host.lookup (h : Host) (k : String) : Option PropVal :=
  match h.funcs.lookup k with
  | some f => some (.func f)
  | none => (h.plainProps.lookup k).map .val

/-- Truthiness of a property lookup result (functions are truthy, a
missing property is `undefined`, hence falsy). -/
def truthyProp : Option PropVal → Bool
  | none => false
  | some (.func _) => true
  | some (.val v) => truthy v

/-- Whether a lookup yielded a function (`typeof x === "function"`). -/
def isFuncProp : Option PropVal → Bool
  | some (.func _) => true
  | _ => false

/-! ### The interception proxy (`handler.get`, lines 3-14) -/

/-- JS `propKey.startsWith('a')`. -/
def strHeadIsA (s : String) : Bool :=
  s.data.head? == some 'a'

/-- JS `propKey.substring(1)`. -/
def strTail (s : String) : String :=
  ⟨s.data.tail⟩

/-- What `handler.get` captures for the returned closure: the resolved
property key and `origMethod`.  Lines 5-12: when `target[propKey]` is
falsy, the key starts with `'a'` and `target[propKey.substring(1)]` is
truthy, the `a`-alias resolves to the bare name.  The `async` flag set
there is never read (line 82 is `if (async) {}`), so the call semantics
omit it. -/
structure GetResult where
  key : String
  orig : Option PropVal

/-- Property-key resolution of `handler.get` (lines 5-12). -/
def resolveGet (h : Host) (k : String) : GetResult :=
  if !truthyProp (h.lookup k) && strHeadIsA k && truthyProp (h.lookup (strTail k)) then
    { key := strTail k, orig := h.lookup (strTail k) }
  else
    { key := k, orig := h.lookup k }

/-- What a property read on the proxy evaluates to: the code's
`handler.get` always returns a fresh closure (line 14), never the
underlying value. -/
inductive ReadResult where
  | value (v : JsValue)
  | closure (g : GetResult)

/-- A property read on the wrapped proxy. -/
def proxyRead (h : Host) (k : String) : ReadResult :=
  .closure (resolveGet h k)

/-! ### Prompt synthesis (lines 17-46) -/

/-- Lines 20-25: a string return value passes through; for
`typeof prompt === "object"` the `prompt` property is read — which
throws a `TypeError` when the value is literally `null` (in JS
`typeof null === "object"`), and yields `undefined` for an array or an
object without the field. -/
def promptFieldStep : JsValue → Except Unit JsValue
  | .null => .error ()
  | .arr _ => .ok .undefined
  | .obj fs => .ok ((fs.lookup "prompt").getD .undefined)
  | v => .ok v

/-- Lines 33-37: one `"\n- {param}: {JSON.stringify(args[index])}"` line
per parameter whose name has no underscore, walked in declaration order
with the original argument index. -/
def paramLines (args : List JsValue) : List String → Nat → String
  | [], _ => ""
  | p :: ps, idx =>
    (if hasUnderscore p then ""
     else "\n- " ++ p ++ ": " ++ jsonStringify (args.getD idx .undefined)) ++
      paramLines args ps (idx + 1)

/-- Lines 39-45: the `SELF CRITICISM:` block for underscore-named
parameters (empty when there are none). -/
def selfCritBlock (params : List String) : String :=
  let us := (params.filter (fun p => hasUnderscore p)).map renderDirective
  if us.isEmpty then ""
  else "\n\nSELF CRITICISM:" ++ strJoin (us.map (fun n => "\n- " ++ n))

/-- Lines 28-45: the auto-derived prompt. -/
def autoPromptStr (ctor key : String) (params : List String)
    (args : List JsValue) : String :=
  "As a " ++ ctor ++ ", " ++ camelWords key ++ " with parameters:" ++
    paramLines args params 0 ++ selfCritBlock params

/-- Lines 17-46: invoke the method body, extract an authored prompt
(`.error` models the `null.prompt` `TypeError`), and fall back to
auto-derivation when the result is falsy. -/
def synthPrompt (ctor key : String) (f : Func) (args : List JsValue) :
    Except Unit JsValue :=
  match promptFieldStep (f.ret args) with
  | .error e => .error e
  | .ok w => if truthy w then .ok w else .ok (.str (autoPromptStr ctor key f.params args))

/-! ### Tool-directive compilation (lines 49-78) -/

/-- Lines 50-55: one `- {name}, args: {params}` line per declared tool. -/
def toolDefOf (ts : List Tool) : String :=
  strJoin (ts.map (fun t =>
    "- " ++ t.name ++ ", args: " ++ strJoinSep ", " t.params ++ "\n"))

/-- Lines 58-74: the fixed instruction block (exact template literal,
trailing whitespace included). -/
def toolTemplate (td : String) : String :=
  "\nYou can ONLY use following tools list to process the users's request:\n"
    ++ td ++
  "\nreturn the tool invocations (may be one or more) context with following JSON format:\n\n[\x7b\n    \"tool\": \"tool name to invoke\",\n    \"args\":[\n        \x7b\n            \"arg name\" : \"arg value\"\n        \x7d \n    ],\n    \"messageToUser\": \"additional message to user\"\n\x7d]\n\nIf the request does not exist in the tool list, you MUST return that the requested question cannot be processed.\n                    "

/-- Lines 49-75: the compiled tool prompt, absent when the host declares
no `tools` array or an empty one. -/
def toolPromptOf (h : Host) : Option String :=
  match h.tools with
  | some ts =>
    let td := toolDefOf ts
    if td == "" then none else some (toolTemplate td)
  | none => none

/-- Line 77: `prompt += "\n\n" + toolPrompt` (JS `+` coerces a
non-string prompt with `String()`). -/
def withToolPrompt (p : JsValue) : Option String → JsValue
  | none => p
  | some tp => .str (jsString p ++ "\n\n" ++ tp)

/-! ### Response reconciliation (`onGenerationFinished`, lines 88-122) -/

/-- The literal marker phrase of line 90. -/
def jsonMarker : String := "result must be in JSON format:"

/-- Lines 90-96: conditional JSON coercion of the raw text; a parse
failure is swallowed, keeping the raw text and logging a diagnostic. -/
def coerceStep (ps raw : String) : JsValue × List String :=
  if strIncludes ps jsonMarker then
    match jsonParse raw with
    | some v => (v, [])
    | none => (.str raw, ["Failed to parse result to JSON"])
  else (.str raw, [])

/-- Whether an (index) key addresses an element of length `len`. -/
def isIndexInto (len : Nat) (k : String) : Bool :=
  isIndexKey k && keyNat k < len

/-- `x.hasOwnProperty(k)`: throws on `null`/`undefined`, key membership
on objects, index or `length` on arrays and strings, `false` on boxed
primitives. -/
def jsHasOwn : JsValue → String → Except Unit Bool
  | .undefined, _ => .error ()
  | .null, _ => .error ()
  | .obj fs, k => .ok (fs.any (fun pr => pr.1 == k))
  | .arr xs, k => .ok (k == "length" || isIndexInto xs.length k)
  | .str s, k => .ok (k == "length" || isIndexInto s.length k)
  | _, _ => .ok false

/-- `x[k]` property access: throws on `null`/`undefined`, `undefined`
for anything absent. -/
def jsGetField : JsValue → String → Except Unit JsValue
  | .undefined, _ => .error ()
  | .null, _ => .error ()
  | .obj fs, k => .ok ((fs.lookup k).getD .undefined)
  | .arr xs, k =>
    .ok (if k == "length" then .num xs.length
         else if isIndexInto xs.length k then xs.getD (keyNat k) .undefined
         else .undefined)
  | .str s, k =>
    .ok (if k == "length" then .num s.length
         else if isIndexInto s.length k then .str ⟨[s.data.getD (keyNat k) ' ']⟩
         else .undefined)
  | _, _ => .ok .undefined

/-- `Object.keys(x).map(key => x[key])` (line 113): throws on
`null`/`undefined`, the own enumerable values in JS key order otherwise. -/
def jsOwnValues : JsValue → Except Unit (List JsValue)
  | .undefined => .error ()
  | .null => .error ()
  | .obj fs => .ok ((orderedFields fs).map (fun pr => pr.2))
  | .arr xs => .ok xs
  | .str s => .ok (s.data.map (fun c => .str ⟨[c]⟩))
  | _ => .ok []

/-- The diagnostic of the reconciler's tool `catch` (line 119). -/
def toolErr : String := "Failed to parse tool invocation string to JSON"

/-- Lines 111-116: the `forEach` over parsed tool invocations.  An
element whose named property is not a function on the host is skipped;
a throw inside the loop (e.g. `Object.keys` of a missing `args`) aborts
the rest of the batch and is caught by the surrounding `try` (line 118),
logging the diagnostic.  Returns the dispatched `(name, positional
args)` calls and the diagnostics. -/
def dispatchLoop (h : Host) : List JsValue →
    List (String × List JsValue) × List String
  | [] => ([], [])
  | e :: es =>
    match jsGetField e "tool" with
    | .error _ => ([], [toolErr])
    | .ok tv =>
      if isFuncProp (h.lookup (jsString tv)) then
        match jsGetField e "args" with
        | .error _ => ([], [toolErr])
        | .ok av =>
          (match jsOwnValues av with
           | .error _ => ([], [toolErr])
           | .ok vs =>
             let rest := dispatchLoop h es
             ((jsString tv, vs) :: rest.1, rest.2))
      else dispatchLoop h es

/-- Lines 107-120: tool-invocation extraction, run only when a tool
prompt was compiled.  `JSON.parse(result)` string-coerces a non-string
result; dispatch requires a non-empty array whose first element carries
a `tool` own property. -/
def toolStep (h : Host) (r : JsValue) :
    List (String × List JsValue) × List String :=
  match jsonParseJs r with
  | none => ([], [toolErr])
  | some pv =>
    match pv with
    | .arr (e :: es) =>
      (match jsHasOwn e "tool" with
       | .error _ => ([], [toolErr])
       | .ok true => dispatchLoop h (e :: es)
       | .ok false => ([], []))
    | _ => ([], [])

/-- Outcome of one completed reconciliation: the resolved value, the
host's `messages` after the append (when present), the dispatched tool
calls, and the logged diagnostics. -/
structure ReconcileRes where
  value : JsValue
  messagesAfter : Option (List Message)
  toolCalls : List (String × List JsValue)
  diagnostics : List String

/-- `onGenerationFinished` for a string prompt (lines 88-122): JSON
coercion when the prompt carries the marker, the
`{propKey}_sanitizeOutput` hook, the append-only `messages` push, the
tool batch, and resolution with the step-2 value. -/
def reconcileStr (h : Host) (k : String) (ps : String) (toolP : Option String)
    (raw : String) : ReconcileRes :=
  let c := coerceStep ps raw
  let r1 := match h.lookup (k ++ "_sanitizeOutput") with
            | some (.func g) => g.ret [c.1]
            | _ => c.1
  let t := match toolP with
           | some _ => toolStep h r1
           | none => ([], [])
  { value := r1
    messagesAfter := h.messages.map (fun ms => ms ++ [⟨"system", r1⟩])
    toolCalls := t.1
    diagnostics := c.2 ++ t.2 }

/-! ### Generation dispatch and the full intercepted call -/

/-- Modelled from the spec: `AIGenerator` is imported from
`./AIGenerator.js`, which is not under `src/`.  Per §6 it accepts a
prompt, optional prior messages and a stream flag, and produces zero or
more chunk events followed by exactly one completion event; per §4.4 a
dispatch failure (backend unreachable, malformed response) surfaces as
a failure of `generate()`, which the `Promise` executor (line 85)
converts into a rejection of the returned promise. -/
inductive Backend where
  | fail
  | completes (chunks : List String) (text : String)

/-- A settled invocation: the reconciliation outcome plus the chunks
forwarded to the host's `stream` sink before completion. -/
structure Settled where
  res : ReconcileRes
  streamed : List String

/-- The returned promise's fate.  `stuck` models an exception thrown
inside the completion callback before `resolve` (a non-string prompt
reaching `prompt.includes`), which leaves the promise unsettled. -/
inductive PromiseOutcome where
  | rejected
  | stuck
  | settled (s : Settled)

/-- The intercepted call: a synchronous `TypeError` (`thrown`) or a
promise. -/
inductive CallResult where
  | thrown
  | promise (o : PromiseOutcome)

/-- The closure returned by `handler.get`, applied to `args` against a
backend behaviour (lines 14-150).  Calling it throws synchronously when
the resolved property is not callable (`origMethod.apply` on line 17)
or when the body returns literal `null` (line 23); otherwise a promise
is created, the prompt assembled above is dispatched once, and the
completion callback reconciles.  The debug `console.log` (lines
142-144) is observability only and is not modelled. -/
def interceptCall (h : Host) (k : String) (args : List JsValue)
    (b : Backend) : CallResult :=
  let g := resolveGet h k
  match g.orig with
  | some (.func f) =>
    (match synthPrompt h.ctorName g.key f args with
     | .error _ => .thrown
     | .ok p =>
       let tp := toolPromptOf h
       match b with
       | .fail => .promise .rejected
       | .completes chunks text =>
         match withToolPrompt p tp with
         | .str ps =>
           .promise (.settled ⟨reconcileStr h g.key ps tp text,
                               if h.hasStream then chunks else []⟩)
         | _ => .promise .stuck)
  | _ => .thrown

/-- How many times `generate()` (line 146) runs for one intercepted
call: once when the call reaches the promise executor, never again —
there is no retry path, and the count does not depend on the backend's
behaviour (the type makes this explicit: `Backend` is not an
argument). -/
def generateCalls (h : Host) (k : String) (args : List JsValue) : Nat :=
  match (resolveGet h k).orig with
  | some (.func f) =>
    (match synthPrompt h.ctorName (resolveGet h k).key f args with
     | .ok _ => 1
     | .error _ => 0)
  | _ => 0

/-! ### Claim-side renderings

Definitions below phrase the specification's descriptions independently
of the code-side folds above, to compare the two. -/

/-- The spec's description of the parameter listing: one
`"- {name}: {JSON-encoded argument value}"` line for each parameter
name not containing an underscore, in declaration order. -/
def specParamListing (params : List String) (args : List JsValue) : String :=
  strJoin ((params.enum.filter (fun pr => !hasUnderscore pr.2)).map
    (fun pr => "\n- " ++ pr.2 ++ ": " ++ jsonStringify (args.getD pr.1 .undefined)))

/-- The return values for which the code takes the auto-derivation path:
falsy after prompt-field extraction.  Literal `null` is excluded — there
the extraction itself throws. -/
def autoDerives : JsValue → Bool
  | .null => false
  | .obj fs => !truthy ((fs.lookup "prompt").getD .undefined)
  | .arr _ => true
  | v => !truthy v

/-- Whether processing one parsed tool invocation cannot throw: reading
its `tool` property succeeds and, when the named property is a host
function, its `args` value survives `Object.keys`. -/
def elemNoThrow (h : Host) (e : JsValue) : Bool :=
  match jsGetField e "tool" with
  | .error _ => false
  | .ok tv =>
    if isFuncProp (h.lookup (jsString tv)) then
      match jsGetField e "args" with
      | .error _ => false
      | .ok av =>
        (match jsOwnValues av with
         | .ok _ => true
         | .error _ => false)
    else true

/-- The spec's description of one dispatched tool call: an element
naming an existing host callable is invoked with the positional values
of its `args` mapping in mapping-iteration order; any other element
produces no call. -/
def specToolCall (h : Host) (e : JsValue) : Option (String × List JsValue) :=
  match jsGetField e "tool" with
  | .error _ => none
  | .ok tv =>
    if isFuncProp (h.lookup (jsString tv)) then
      match jsGetField e "args" with
      | .error _ => none
      | .ok av =>
        (match jsOwnValues av with
         | .ok vs => some (jsString tv, vs)
         | .error _ => none)
    else none

/-! ### Concrete instances (README / spec examples) -/

/-- `Writer.generateJoke(topic, language){}` of the README. -/
def writerFunc : Func :=
  ⟨["topic", "language"], fun _ => .undefined⟩

/-- A `Writer` host with the single bodiless `generateJoke` method. -/
def writerHost : Host :=
  ⟨"Writer", [("generateJoke", writerFunc)], [], none, none, false⟩

/-- `Vue2Expert.createForm(fields, return_only_code__without_any_explanation){}`
of the README: a method with a directive (underscore) parameter. -/
def createFormFunc : Func :=
  ⟨["fields", "return_only_code__without_any_explanation"], fun _ => .undefined⟩

/-- A method whose body returns an object whose `prompt` field is the
empty string. -/
def emptyPromptFunc : Func :=
  ⟨["x"], fun _ => .obj [("prompt", .str "")]⟩

/-- A host with a non-method `title` property. -/
def pageHost : Host :=
  ⟨"Page", [], [("title", .str "hi")], none, none, false⟩

/-- A host declaring two tools `f` and `g`, both implemented, whose
intercepted `respondToUser` authors its own prompt. -/
def twoToolHost : Host :=
  ⟨"OrderTaker",
   [("respondToUser", ⟨["userRequest"], fun _ => .str "Respond please"⟩),
    ("f", ⟨["a"], fun _ => .undefined⟩),
    ("g", ⟨["x"], fun _ => .undefined⟩)],
   [], some [⟨"f", ["a"]⟩, ⟨"g", ["x"]⟩], none, false⟩

/-- The spec's tool-invocation example host: a `calculate` tool. -/
def calcHost : Host :=
  ⟨"OrderTaker",
   [("respondToUser", ⟨["userRequest"], fun _ => .str "Respond please"⟩),
    ("calculate", ⟨["expr"], fun _ => .undefined⟩)],
   [], some [⟨"calculate", ["expr"]⟩], none, false⟩

/-- A host with an implemented tool `f`, for exercising the
string-coercion leak of the tool-extraction parse. -/
def leakHost : Host :=
  ⟨"Scheduler",
   [("m", ⟨[], fun _ => .str "result must be in JSON format: please"⟩),
    ("f", ⟨["x"], fun _ => .undefined⟩)],
   [], some [⟨"f", ["x"]⟩], none, false⟩

/-- A host exposing a `messages` sequence. -/
def memoryHost : Host :=
  ⟨"Writer", [("generateJoke", writerFunc)], [],
   none, some [⟨"system", .str "You are a clerk."⟩], false⟩

/-- Backend text whose first-step parse yields an array holding one
JSON-encoded tool batch as a string:
`["[{\"tool\":\"f\",\"args\":{\"x\":\"1\"}}]"]`. -/
def leakRaw : String :=
  "[\"[\x7b\\\"tool\\\":\\\"f\\\",\\\"args\\\":\x7b\\\"x\\\":\\\"1\\\"\x7d\x7d]\"]"

/-- A tool batch whose first element names existing `f` but carries no
`args`, followed by a well-formed invocation of existing `g`:
`[{"tool":"f"},{"tool":"g","args":{"x":"1"}}]`. -/
def abortRaw : String :=
  "[\x7b\"tool\":\"f\"\x7d,\x7b\"tool\":\"g\",\"args\":\x7b\"x\":\"1\"\x7d\x7d]"

/-- The spec's tool example backend text:
`[{"tool":"calculate","args":{"expr":"2+2"}}]`. -/
def calcRaw : String :=
  "[\x7b\"tool\":\"calculate\",\"args\":\x7b\"expr\":\"2+2\"\x7d\x7d]"

/-- A method authoring its prompt as a non-empty string. -/
def authoredFunc : Func :=
  ⟨["topic", "language"], fun _ => .str "please generate a joke"⟩

/-- A method returning a structured value with a non-empty `prompt`
field. -/
def objPromptFunc : Func :=
  ⟨[], fun _ => .obj [("prompt", .str "do it")]⟩

/-! ### Helper lemmas -/

theorem str_empty_append (s : String) : "" ++ s = s := by
  cases s
  rfl

/-- `paramLines` walked from index `idx` is the spec-side listing over
the correspondingly enumerated parameters. -/
theorem paramLines_eq_enumFrom (args : List JsValue) :
    ∀ (ps : List String) (idx : Nat),
      paramLines args ps idx =
        strJoin (((List.enumFrom idx ps).filter (fun pr => !hasUnderscore pr.2)).map
          (fun pr => "\n- " ++ pr.2 ++ ": " ++ jsonStringify (args.getD pr.1 .undefined))) := by
  intro ps
  induction ps with
  | nil => intro idx; rfl
  | cons p ps ih =>
    intro idx
    by_cases hu : hasUnderscore p = true
    · simp [paramLines, List.enumFrom, hu, ih (idx + 1), str_empty_append]
    · simp at hu
      simp [paramLines, List.enumFrom, hu, ih (idx + 1), strJoin]

/-- The code-side auto-derived prompt coincides with the spec-side
concatenation: header, the underscore-free parameter listing in
declaration order, then the self-criticism block. -/
theorem autoPromptStr_eq_spec (ctor key : String) (params : List String)
    (args : List JsValue) :
    autoPromptStr ctor key params args =
      "As a " ++ ctor ++ ", " ++ camelWords key ++ " with parameters:" ++
        specParamListing params args ++ selfCritBlock params := by
  unfold autoPromptStr specParamListing
  rw [show params.enum = List.enumFrom 0 params from rfl,
    paramLines_eq_enumFrom args params 0]

/-- Whenever the method body's value is falsy after prompt-field
extraction (and not literal `null`), synthesis lands in the
auto-derivation branch. -/
theorem synthPrompt_auto (ctor key : String) (f : Func) (args : List JsValue)
    (ha : autoDerives (f.ret args) = true) :
    synthPrompt ctor key f args = .ok (.str (autoPromptStr ctor key f.params args)) := by
  unfold synthPrompt
  cases hv : f.ret args with
  | undefined => simp [promptFieldStep, truthy]
  | null => simp [autoDerives, hv] at ha
  | bool b =>
    simp [autoDerives, hv, truthy] at ha
    simp [promptFieldStep, truthy, ha]
  | num n =>
    simp [autoDerives, hv, truthy] at ha
    simp [promptFieldStep, truthy, ha]
  | str s =>
    simp [autoDerives, hv, truthy] at ha
    simp [promptFieldStep, truthy, ha]
  | arr xs => simp [promptFieldStep, truthy]
  | obj fs =>
    simp [autoDerives, hv] at ha
    simp [promptFieldStep, ha]

/-- A method body returning a truthy value (after prompt-field
extraction) makes exactly that value the prompt. -/
theorem synthPrompt_authored (ctor key : String) (f : Func) (args : List JsValue)
    (w : JsValue) (hw : promptFieldStep (f.ret args) = .ok w)
    (ht : truthy w = true) :
    synthPrompt ctor key f args = .ok w := by
  unfold synthPrompt
  rw [hw]
  simp [ht]

/-- `getD` is unaffected by `set` at a different index. -/
theorem getD_set_ne (l : List JsValue) (v d : JsValue) :
    ∀ (i j : Nat), i ≠ j → (l.set i v).getD j d = l.getD j d := by
  induction l with
  | nil => intro i j _; simp
  | cons a l ih =>
    intro i j hij
    cases i with
    | zero =>
      cases j with
      | zero => exact absurd rfl hij
      | succ j => simp [List.getD]
    | succ i =>
      cases j with
      | zero => simp [List.getD]
      | succ j =>
        simp only [List.set, List.getD_cons_succ]
        exact ih i j (by omega)

/-- The parameter listing never reads the argument at an index whose
parameter name is excluded by the walk's hypotheses. -/
theorem paramLines_set (args : List JsValue) (i : Nat) (v : JsValue) :
    ∀ (ps : List String) (idx : Nat),
      (∀ k, k < ps.length → hasUnderscore (ps.getD k "") = false → idx + k ≠ i) →
      paramLines (args.set i v) ps idx = paramLines args ps idx := by
  intro ps
  induction ps with
  | nil => intro idx _; rfl
  | cons p ps ih =>
    intro idx hk
    have htl : ∀ k, k < ps.length → hasUnderscore (ps.getD k "") = false →
        idx + 1 + k ≠ i := by
      intro k h1 h2
      have := hk (k + 1) (by simpa using h1) (by simpa using h2)
      omega
    unfold paramLines
    by_cases hu : hasUnderscore p = true
    · rw [if_pos hu, if_pos hu, ih (idx + 1) htl]
    · have hne : i ≠ idx := by
        have := hk 0 (by simp) (by simpa [List.getD] using hu)
        omega
      rw [if_neg hu, if_neg hu, getD_set_ne args v .undefined i idx hne,
        ih (idx + 1) htl]

/-- An in-range `getD` is a member of the list. -/
theorem getD_mem_of_lt (l : List String) :
    ∀ i, i < l.length → l.getD i "" ∈ l := by
  induction l with
  | nil => intro i h; simp at h
  | cons a l ih =>
    intro i h
    cases i with
    | zero => simp [List.getD]
    | succ i =>
      simp only [List.getD_cons_succ]
      exact List.mem_cons_of_mem a (ih i (by simpa using h))

/-- When no parsed tool invocation can throw, the dispatch loop
dispatches exactly the elements naming existing callables, with their
positional argument values, and logs nothing. -/
theorem dispatchLoop_eq_filterMap (h : Host) :
    ∀ (es : List JsValue), (∀ x ∈ es, elemNoThrow h x = true) →
      dispatchLoop h es = (es.filterMap (specToolCall h), []) := by
  intro es
  induction es with
  | nil => intro _; rfl
  | cons e es ih =>
    intro hok
    have he : elemNoThrow h e = true := hok e (List.mem_cons_self e es)
    have hrest := ih (fun x hx => hok x (List.mem_cons_of_mem e hx))
    unfold elemNoThrow at he
    cases htool : jsGetField e "tool" with
    | error u => simp [htool] at he
    | ok tv =>
      simp only [htool] at he
      by_cases hfp : isFuncProp (h.lookup (jsString tv)) = true
      · rw [if_pos hfp] at he
        cases hargs : jsGetField e "args" with
        | error u => simp [hargs] at he
        | ok av =>
          simp only [hargs] at he
          cases hvs : jsOwnValues av with
          | error u => simp [hvs] at he
          | ok vs =>
            simp [dispatchLoop, htool, hfp, hargs, hvs, hrest,
              specToolCall, List.filterMap_cons]
      · simp [dispatchLoop, htool, hfp, hrest, specToolCall,
          List.filterMap_cons]

/-- String coercion of any plain object is the unparseable
`[object Object]`. -/
theorem jsString_obj (fs : List (String × JsValue)) :
    jsString (.obj fs) = "[object Object]" := rfl

/-- The `a`-alias resolves to the bare method when the alias name is
itself absent and the bare name is a function. -/
theorem resolveGet_alias (h : Host) (k ak : String) (f : Func)
    (hd : ak.data = 'a' :: k.data)
    (habs : h.lookup ak = none)
    (hk : h.lookup k = some (.func f)) :
    resolveGet h ak = resolveGet h k := by
  have htail : strTail ak = k := by
    unfold strTail
    rw [hd]
    cases k
    rfl
  have hhead : strHeadIsA ak = true := by
    unfold strHeadIsA
    rw [hd]
    rfl
  unfold resolveGet
  rw [htail, habs, hhead, hk]
  simp [truthyProp]


/-! ### Claim theorems -/

/-- C1 (amended): for every intercepted method whose invocation returns
a value that is falsy after prompt-field extraction (undefined, empty
string, false, zero, an array, or an object with a falsy `prompt`
field — literal `null` instead throws), the synthesized prompt equals
"As a " + constructor name + ", " + the space-separated lower-cased
method name + " with parameters:" + one "- name: JSON(arg)" line per
underscore-free parameter in declaration order, followed by the
SELF CRITICISM block when underscore-named parameters exist. -/
theorem c1_amended (ctor key : String) (f : Func) (args : List JsValue)
    (ha : autoDerives (f.ret args) = true) :
    synthPrompt ctor key f args =
      .ok (.str ("As a " ++ ctor ++ ", " ++ camelWords key ++ " with parameters:" ++
        specParamListing f.params args ++ selfCritBlock f.params)) := by
  rw [synthPrompt_auto ctor key f args ha, autoPromptStr_eq_spec]

/-- C1 witness: the spec's `generateJoke` example yields exactly the
string the spec displays. -/
theorem c1_witness :
    synthPrompt "Writer" "generateJoke" writerFunc [.str "a cute dog", .str "Korean"] =
      .ok (.str "As a Writer, generate joke with parameters:\n- topic: \"a cute dog\"\n- language: \"Korean\"") :=
  (c1_amended "Writer" "generateJoke" writerFunc [.str "a cute dog", .str "Korean"]
    (by decide)).trans (by rfl)

/-- C1 counterexample: for `createForm(fields,
return_only_code__without_any_explanation)` returning nothing, the
synthesized prompt is the auto-derived one, and it does not equal the
concatenation the claim states (the SELF CRITICISM block is appended). -/
theorem c1_counterexample :
    synthPrompt "Vue2Expert" "createForm" createFormFunc [.arr [], .bool true] =
      .ok (.str (autoPromptStr "Vue2Expert" "createForm" createFormFunc.params
        [.arr [], .bool true]))
    ∧ autoPromptStr "Vue2Expert" "createForm" createFormFunc.params [.arr [], .bool true] ≠
        "As a Vue2Expert, create form with parameters:\n- fields: []" :=
  ⟨rfl, by decide⟩

/-- C2 (amended): a method body returning a non-empty string makes that
string the prompt verbatim (auto-derivation bypassed); a body returning
an object whose `prompt` field holds a truthy value makes that value
the prompt. -/
theorem c2_amended (ctor key : String) (f : Func) (args : List JsValue) :
    (∀ s : String, f.ret args = .str s → s ≠ "" →
      synthPrompt ctor key f args = .ok (.str s))
    ∧ (∀ fs : List (String × JsValue), f.ret args = .obj fs →
        truthy ((fs.lookup "prompt").getD .undefined) = true →
        synthPrompt ctor key f args = .ok ((fs.lookup "prompt").getD .undefined)) := by
  constructor
  · intro s hret hs
    apply synthPrompt_authored
    · rw [hret]; rfl
    · simp [truthy, hs]
  · intro fs hret ht
    apply synthPrompt_authored
    · rw [hret]; rfl
    · exact ht

/-- C2 witness: an authored string prompt and an authored
`prompt`-field prompt are both used verbatim. -/
theorem c2_witness :
    synthPrompt "Publisher" "generateAnotherJoke" authoredFunc [.str "a", .str "b"] =
      .ok (.str "please generate a joke")
    ∧ synthPrompt "Scheduler" "plan" objPromptFunc [] = .ok (.str "do it") :=
  ⟨(c2_amended "Publisher" "generateAnotherJoke" authoredFunc [.str "a", .str "b"]).1
      "please generate a joke" rfl (by decide),
   ((c2_amended "Scheduler" "plan" objPromptFunc []).2
      [("prompt", .str "do it")] rfl (by decide)).trans rfl⟩

/-- C2 counterexample: a body returning `{prompt: ""}` — a structured
object carrying a `prompt` field — does not get that field's value as
the prompt: synthesis auto-derives a non-empty prompt instead. -/
theorem c2_counterexample :
    synthPrompt "Publisher" "generateJsonJoke" emptyPromptFunc [.str "x"] =
      .ok (.str (autoPromptStr "Publisher" "generateJsonJoke" emptyPromptFunc.params
        [.str "x"]))
    ∧ autoPromptStr "Publisher" "generateJsonJoke" emptyPromptFunc.params [.str "x"] ≠ "" :=
  ⟨rfl, by decide⟩

/-- C3: for a parameter whose name contains an underscore: (1) its
argument value is never interpolated — the auto-derived prompt is
unchanged when that argument changes; (2) its rendered name
(underscores to spaces, upper-cased) is listed in the SELF CRITICISM
name list; (3) the prompt decomposes as header + listing over only
underscore-free parameters + SELF CRITICISM block, so the name never
appears in the normal listing; (4) the block renders as
"SELF CRITICISM:" over the rendered names; (5) a method authoring a
non-empty string prompt gets it verbatim — the block is appended only
on the auto-derivation path. -/
theorem c3_directive_params (ctor key : String) (params : List String) (i : Nat)
    (hi : i < params.length) (hu : hasUnderscore (params.getD i "") = true) :
    (∀ (args : List JsValue) (v : JsValue),
      autoPromptStr ctor key params (args.set i v) = autoPromptStr ctor key params args)
    ∧ renderDirective (params.getD i "") ∈
        (params.filter (fun p => hasUnderscore p)).map renderDirective
    ∧ (∀ args : List JsValue,
        autoPromptStr ctor key params args =
          "As a " ++ ctor ++ ", " ++ camelWords key ++ " with parameters:" ++
            specParamListing params args ++ selfCritBlock params)
    ∧ selfCritBlock params =
        "\n\nSELF CRITICISM:" ++
          strJoin (((params.filter (fun p => hasUnderscore p)).map renderDirective).map
            (fun n => "\n- " ++ n))
    ∧ (∀ (f : Func) (args : List JsValue) (s : String),
        f.ret args = .str s → s ≠ "" → synthPrompt ctor key f args = .ok (.str s)) := by
  have hmem : renderDirective (params.getD i "") ∈
      (params.filter (fun p => hasUnderscore p)).map renderDirective :=
    List.mem_map_of_mem renderDirective
      (List.mem_filter.mpr ⟨getD_mem_of_lt params i hi, hu⟩)
  refine ⟨?_, hmem, ?_, ?_, ?_⟩
  · intro args v
    unfold autoPromptStr
    rw [paramLines_set args i v params 0 ?_]
    intro k hk hku heq
    have hki : k = i := by omega
    rw [hki, hu] at hku
    simp at hku
  · intro args
    exact autoPromptStr_eq_spec ctor key params args
  · have hne : (params.filter (fun p => hasUnderscore p)).map renderDirective ≠ [] :=
      List.ne_nil_of_mem hmem
    unfold selfCritBlock
    rw [if_neg (fun hc => hne (List.isEmpty_iff.mp hc))]
  · intro f args s hret hs
    apply synthPrompt_authored
    · rw [hret]; rfl
    · simp [truthy, hs]

/-- C3 witness: for `createForm(fields,
return_only_code__without_any_explanation)`, changing the directive
argument leaves the prompt unchanged, and the rendered directive name
is in the SELF CRITICISM list. -/
theorem c3_witness :
    autoPromptStr "Vue2Expert" "createForm" createFormFunc.params
        ([.arr [], .bool true].set 1 (.str "CHANGED")) =
      autoPromptStr "Vue2Expert" "createForm" createFormFunc.params [.arr [], .bool true]
    ∧ renderDirective "return_only_code__without_any_explanation" ∈
        (createFormFunc.params.filter (fun p => hasUnderscore p)).map renderDirective := by
  have t := c3_directive_params "Vue2Expert" "createForm" createFormFunc.params 1
    (by decide) (by decide)
  exact ⟨t.1 [.arr [], .bool true] (.str "CHANGED"), t.2.1⟩

/-- C4: when the prompt carries the marker phrase, a parseable raw text
is replaced by its parsed value with no diagnostic; an unparseable one
is kept verbatim with the parse diagnostic recorded; without a sanitize
hook that working result is the resolved value; and the completion path
still settles the promise either way. -/
theorem c4_json_result_coercion (ps raw : String)
    (hm : strIncludes ps jsonMarker = true) :
    (∀ v : JsValue, jsonParse raw = some v → coerceStep ps raw = (v, []))
    ∧ (jsonParse raw = none →
        coerceStep ps raw = (.str raw, ["Failed to parse result to JSON"]))
    ∧ (∀ (h : Host) (k : String) (toolP : Option String),
        isFuncProp (h.lookup (k ++ "_sanitizeOutput")) = false →
        (reconcileStr h k ps toolP raw).value = (coerceStep ps raw).1)
    ∧ (∀ (h : Host) (k : String) (args : List JsValue) (f : Func) (p : JsValue)
        (chunks : List String),
        (resolveGet h k).orig = some (.func f) →
        synthPrompt h.ctorName (resolveGet h k).key f args = .ok p →
        withToolPrompt p (toolPromptOf h) = .str ps →
        interceptCall h k args (.completes chunks raw) =
          .promise (.settled ⟨reconcileStr h (resolveGet h k).key ps (toolPromptOf h) raw,
                              if h.hasStream then chunks else []⟩)) := by
  refine ⟨?_, ?_, ?_, ?_⟩
  · intro v hv
    unfold coerceStep
    rw [if_pos hm, hv]
  · intro hv
    unfold coerceStep
    rw [if_pos hm, hv]
  · intro h k toolP hs
    cases hl : h.lookup (k ++ "_sanitizeOutput") with
    | none => simp [reconcileStr, hl]
    | some pv =>
      cases pv with
      | func g => rw [hl] at hs; simp [isFuncProp] at hs
      | val w => simp [reconcileStr, hl]
  · intro h k args f p chunks hf hsyn hwp
    simp [interceptCall, hf, hsyn, hwp]

/-- C4 witness: the spec's example object parses and becomes the
result; invalid JSON keeps the raw text and logs the diagnostic. -/
theorem c4_witness :
    coerceStep "x result must be in JSON format: y"
        "\x7b\"title\":\"x\",\"content\":\"y\"\x7d" =
      (.obj [("title", .str "x"), ("content", .str "y")], [])
    ∧ coerceStep "x result must be in JSON format: y" "oops" =
        (.str "oops", ["Failed to parse result to JSON"]) :=
  ⟨(c4_json_result_coercion "x result must be in JSON format: y"
      "\x7b\"title\":\"x\",\"content\":\"y\"\x7d" (by decide)).1
      (.obj [("title", .str "x"), ("content", .str "y")]) rfl,
   (c4_json_result_coercion "x result must be in JSON format: y" "oops"
      (by decide)).2.1 rfl⟩

/-- C5 (amended): when the reconciled result parses as a non-empty JSON
array whose first element has a `tool` field and no element can throw
(every element naming an existing callable carries a keyable `args`
value), the dispatched calls are exactly the elements naming existing
host callables, each with the positional values of its `args` mapping
in iteration order (absent tools are skipped without affecting the
rest, and nothing is logged); and the tool batch never affects the
value or the message append of the reconciliation. -/
theorem c5_amended (h : Host) (r e : JsValue) (es : List JsValue)
    (hp : jsonParseJs r = some (.arr (e :: es)))
    (ht : jsHasOwn e "tool" = .ok true)
    (hok : ∀ x ∈ e :: es, elemNoThrow h x = true) :
    toolStep h r = ((e :: es).filterMap (specToolCall h), [])
    ∧ (∀ (k ps raw tp : String),
        (reconcileStr h k ps (some tp) raw).value =
          (reconcileStr h k ps none raw).value
        ∧ (reconcileStr h k ps (some tp) raw).messagesAfter =
            (reconcileStr h k ps none raw).messagesAfter) := by
  constructor
  · unfold toolStep
    rw [hp]
    simp only [ht]
    exact dispatchLoop_eq_filterMap h (e :: es) hok
  · intro k ps raw tp
    exact ⟨by simp [reconcileStr], by simp [reconcileStr]⟩

/-- C5 witness: the spec's `calculate` example dispatches `calculate`
with `"2+2"` as sole argument, and the batch leaves the resolved value
unchanged. -/
theorem c5_witness :
    toolStep calcHost (.str calcRaw) = ([("calculate", [.str "2+2"])], [])
    ∧ (reconcileStr calcHost "respondToUser" "p" (some "tp") calcRaw).value =
        (reconcileStr calcHost "respondToUser" "p" none calcRaw).value := by
  have t := c5_amended calcHost (.str calcRaw)
    (.obj [("tool", .str "calculate"), ("args", .obj [("expr", .str "2+2")])]) []
    rfl rfl (by decide)
  exact ⟨t.1.trans rfl, (t.2 "respondToUser" "p" calcRaw "tp").1⟩

set_option maxRecDepth 8000 in
/-- C5 counterexample: with tools `f` and `g` both implemented and the
batch `[{"tool":"f"},{"tool":"g","args":{"x":"1"}}]`, the element
naming existing `g` with a well-formed `args` mapping is NOT
dispatched: the first element names existing `f` without `args`, the
loop throws there, and dispatch of the whole batch is aborted (only the
diagnostic is logged). -/
theorem c5_counterexample :
    interceptCall twoToolHost "respondToUser" [.str "hi"] (.completes [] abortRaw) =
      .promise (.settled ⟨⟨.str abortRaw, none, [], [toolErr]⟩, []⟩) := rfl

/-- C6 (amended): a property read on the proxy never evaluates to the
host's own property value — `handler.get` always returns a fresh
interception closure — and when the resolved property is not a
function, calling that closure throws. -/
theorem c6_amended (h : Host) (k : String) (args : List JsValue) (b : Backend)
    (hnf : isFuncProp (resolveGet h k).orig = false) :
    interceptCall h k args b = .thrown
    ∧ (∀ v : JsValue, proxyRead h k ≠ .value v) := by
  constructor
  · cases ho : (resolveGet h k).orig with
    | none => simp [interceptCall, ho]
    | some pv =>
      cases pv with
      | func g => rw [ho] at hnf; simp [isFuncProp] at hnf
      | val w => simp [interceptCall, ho]
  · intro v hv
    exact ReadResult.noConfusion hv

/-- C6 witness: reading the non-method `title` property through the
proxy gives a closure whose call throws, not the stored string. -/
theorem c6_witness :
    interceptCall pageHost "title" [] (.completes [] "t") = .thrown
    ∧ proxyRead pageHost "title" ≠ ReadResult.value (.str "other") := by
  have t := c6_amended pageHost "title" [] (.completes [] "t") (by decide)
  exact ⟨t.1, t.2 (.str "other")⟩

/-- C6 counterexample: the proxy read of the host's `title` property
does not return the host's own value `"hi"` (it returns an interception
closure). -/
theorem c6_counterexample :
    proxyRead pageHost "title" ≠ ReadResult.value (.str "hi") :=
  fun hv => ReadResult.noConfusion hv

/-- C7: when the host has no property at the `a`-prefixed name and the
bare name is a method, the aliased call and the bare call are the same
function of the arguments and the backend — identical synthesized
prompts, identical reconciliation, identical dispatch count. -/
theorem c7_alias_equiv (h : Host) (k ak : String) (args : List JsValue)
    (b : Backend) (f : Func) (hd : ak.data = 'a' :: k.data)
    (habs : h.lookup ak = none) (hk : h.lookup k = some (.func f)) :
    interceptCall h ak args b = interceptCall h k args b
    ∧ generateCalls h ak args = generateCalls h k args := by
  have hres := resolveGet_alias h k ak f hd habs hk
  unfold interceptCall generateCalls
  rw [hres]
  exact ⟨rfl, rfl⟩

/-- C7 witness: `agenerateJoke` and `generateJoke` on the Writer host
produce identical outcomes for the same arguments and backend. -/
theorem c7_witness :
    interceptCall writerHost "agenerateJoke" [.str "a cute dog", .str "Korean"]
        (.completes [] "haha") =
      interceptCall writerHost "generateJoke" [.str "a cute dog", .str "Korean"]
        (.completes [] "haha") :=
  (c7_alias_equiv writerHost "generateJoke" "agenerateJoke"
    [.str "a cute dog", .str "Korean"] (.completes [] "haha") writerFunc
    rfl rfl rfl).1

/-- C8: for an intercepted invocation that reaches dispatch, a backend
dispatch failure rejects the returned promise; a completed generation
never rejects it (parse-class failures are swallowed downstream); and
`generate()` runs exactly once — no retry. -/
theorem c8_dispatch_failure (h : Host) (k : String) (args : List JsValue)
    (f : Func) (p : JsValue)
    (hf : (resolveGet h k).orig = some (.func f))
    (hs : synthPrompt h.ctorName (resolveGet h k).key f args = .ok p) :
    interceptCall h k args .fail = .promise .rejected
    ∧ (∀ (chunks : List String) (text : String),
        interceptCall h k args (.completes chunks text) ≠ .promise .rejected)
    ∧ generateCalls h k args = 1 := by
  refine ⟨?_, ?_, ?_⟩
  · simp [interceptCall, hf, hs]
  · intro chunks text
    simp only [interceptCall, hf, hs]
    cases hwp : withToolPrompt p (toolPromptOf h) <;> simp [hwp]
  · simp [generateCalls, hf, hs]

/-- C8 witness: on the Writer host, a failing backend rejects
`generateJoke`'s promise and the dispatch count is one. -/
theorem c8_witness :
    interceptCall writerHost "generateJoke" [.str "a", .str "b"] .fail =
      .promise .rejected
    ∧ generateCalls writerHost "generateJoke" [.str "a", .str "b"] = 1 := by
  have t := c8_dispatch_failure writerHost "generateJoke" [.str "a", .str "b"]
    writerFunc
    (.str (autoPromptStr "Writer" "generateJoke" writerFunc.params [.str "a", .str "b"]))
    rfl rfl
  exact ⟨t.1, t.2.2⟩

/-- C9: for a host exposing a `messages` sequence, reconciliation
appends exactly one entry — role "system", content the
post-sanitization resolved value — and keeps every prior entry in
place. -/
theorem c9_messages_append (h : Host) (k ps : String) (toolP : Option String)
    (raw : String) (ms : List Message) (hm : h.messages = some ms) :
    (reconcileStr h k ps toolP raw).messagesAfter =
      some (ms ++ [⟨"system", (reconcileStr h k ps toolP raw).value⟩]) := by
  simp [reconcileStr, hm]

/-- C9 witness: the memory host's single prior system message is kept
and exactly one new system entry is appended. -/
theorem c9_witness :
    (reconcileStr memoryHost "generateJoke" "p" none "haha").messagesAfter =
      some ([⟨"system", .str "You are a clerk."⟩] ++
        [⟨"system", (reconcileStr memoryHost "generateJoke" "p" none "haha").value⟩]) :=
  c9_messages_append memoryHost "generateJoke" "p" none "haha"
    [⟨"system", .str "You are a clerk."⟩] rfl

/-- C10 (amended): when the step-1 parse yields a plain (non-array)
object and no sanitize hook replaces it, the tool-extraction parse runs
on the string coercion `[object Object]` and always fails: no tool is
dispatched, the diagnostic is logged, and the object is still the
resolved value.  (An array can evade this: its string coercion is the
comma-join of its elements, which may itself be valid JSON.) -/
theorem c10_amended (h : Host) (k ps raw tp : String)
    (fs : List (String × JsValue))
    (hm : strIncludes ps jsonMarker = true)
    (hp : jsonParse raw = some (.obj fs))
    (hs : isFuncProp (h.lookup (k ++ "_sanitizeOutput")) = false) :
    (reconcileStr h k ps (some tp) raw).toolCalls = []
    ∧ (reconcileStr h k ps (some tp) raw).diagnostics = [toolErr]
    ∧ (reconcileStr h k ps (some tp) raw).value = .obj fs := by
  have hr1 : coerceStep ps raw = (.obj fs, []) := by
    unfold coerceStep
    rw [if_pos hm, hp]
  have hts : toolStep h (.obj fs) = ([], [toolErr]) := by
    have hjp : jsonParseJs (.obj fs) = none := by
      unfold jsonParseJs
      rw [jsString_obj]
      rfl
    unfold toolStep
    rw [hjp]
  cases hl : h.lookup (k ++ "_sanitizeOutput") with
  | none => refine ⟨?_, ?_, ?_⟩ <;> simp [reconcileStr, hr1, hl, hts]
  | some pv =>
    cases pv with
    | func g => rw [hl] at hs; simp [isFuncProp] at hs
    | val w => refine ⟨?_, ?_, ?_⟩ <;> simp [reconcileStr, hr1, hl, hts]

/-- C10 witness: a marker prompt whose backend text parses to a plain
object dispatches nothing and logs the tool-parse diagnostic, even
though a tool `f` exists and a tool block was compiled. -/
theorem c10_witness :
    (reconcileStr leakHost "m" "result must be in JSON format: please" (some "tp")
        "\x7b\"a\":1\x7d").toolCalls = []
    ∧ (reconcileStr leakHost "m" "result must be in JSON format: please" (some "tp")
        "\x7b\"a\":1\x7d").diagnostics = [toolErr] := by
  have t := c10_amended leakHost "m" "result must be in JSON format: please"
    "\x7b\"a\":1\x7d" "tp" [("a", .num 1)] (by decide) rfl (by decide)
  exact ⟨t.1, t.2.1⟩

set_option maxRecDepth 8000 in
/-- C10 counterexample: the step-1 parse of
`["[{\"tool\":\"f\",\"args\":{\"x\":\"1\"}}]"]` yields a non-string
value (an array) and no sanitize hook exists, yet the tool-extraction
parse succeeds — the array's string coercion is its sole element, a
valid JSON tool batch — and `f` IS dispatched with `"1"`. -/
theorem c10_counterexample :
    reconcileStr leakHost "m" "result must be in JSON format: please"
        (toolPromptOf leakHost) leakRaw =
      ⟨.arr [.str "[\x7b\"tool\":\"f\",\"args\":\x7b\"x\":\"1\"\x7d\x7d]"], none,
       [("f", [.str "1"])], []⟩ := rfl

end Langobject
